import Mathlib

/-!
Shallow embedding of the deep-focus-hub study tracker (the `useStudyTracker`
hook) and proofs about its operations.

The tracker keeps three flat collections in memory: study sessions, daily
habit records, and weekly targets.  All numeric values are JavaScript
numbers; every quantity that the tracker computes here is either an integer
(durations in minutes, counts) or a decimal that is exactly representable,
so we model numbers by `ℤ`/`ℕ`/`ℚ` with the JavaScript rounding functions
made explicit.  Strings (dates `YYYY-MM-DD`, times `HH:mm`, identifiers,
subjects) are modelled by `String`, with character-list helpers standing in
for the JavaScript string primitives so that everything is executable.
-/

namespace DeepFocus

/-- JavaScript `Math.round`: rounds to the nearest integer, halves toward
positive infinity, i.e. `⌊x + 1/2⌋`. -/
def jsRound (q : ℚ) : ℤ := ⌊q + 1/2⌋

/-- `Math.round(x * 10) / 10` — round to one decimal place, as used for
weekly target hours. -/
def round1 (q : ℚ) : ℚ := (jsRound (q * 10) : ℚ) / 10

/-- `Math.round(x * 100) / 100` — round to two decimal places, as used for
daily total hours. -/
def round2 (q : ℚ) : ℚ := (jsRound (q * 100) : ℚ) / 100

/-- The `EnergyLevel` union type: `'low' | 'medium' | 'high'`. -/
inductive EnergyLevel
  | low
  | medium
  | high
deriving DecidableEq

/-- A logged study session (`StudySession` in `lib/types`). -/
structure StudySession where
  id : String
  date : String
  subject : String
  startTime : String
  endTime : String
  durationMinutes : ℤ
  focusQuality : ℕ
  distractionCount : ℕ
  energyLevel : EnergyLevel
  notes : String
deriving DecidableEq

/-- The argument of `addSession`: a session draft without `id` and without
`durationMinutes` (`Omit<StudySession, 'id' | 'durationMinutes'>`). -/
structure SessionDraft where
  date : String
  subject : String
  startTime : String
  endTime : String
  focusQuality : ℕ
  distractionCount : ℕ
  energyLevel : EnergyLevel
  notes : String
deriving DecidableEq

/-- One day's habit record (`DailyHabits` in `lib/types`): a date plus six
independent boolean flags. -/
structure DailyHabits where
  date : String
  wakeUpOnTime : Bool
  sleepEnough : Bool
  exercise : Bool
  englishPractice : Bool
  noPorn : Bool
  noSocialMedia : Bool
deriving DecidableEq

/-- A weekly target record (`WeeklyTarget` in `lib/types`). -/
structure WeeklyTarget where
  weekStart : String
  targetHours : ℚ
  actualHours : ℚ
  met : Bool
deriving DecidableEq

/-! ### Character-level string helpers

The JavaScript string primitives used by the tracker (`split`, numeric
parsing of digit strings, codepoint-wise comparison) are modelled over
`List Char` so that they compute by kernel reduction. -/

/-- Splits a character list at every occurrence of `sep`, like
`String.prototype.split` restricted to a single-character separator. -/
def splitOnChar (sep : Char) : List Char → List (List Char)
  | [] => [[]]
  | c :: cs =>
    match splitOnChar sep cs with
    | [] => [[]]
    | g :: gs => if c = sep then [] :: g :: gs else (c :: g) :: gs

/-- The numeric value of a decimal digit character, if it is one. -/
def digitVal (c : Char) : Option ℕ :=
  if '0' ≤ c ∧ c ≤ '9' then some (c.toNat - '0'.toNat) else none

/-- Accumulating decimal reading of a digit list; fails on any non-digit. -/
def decDigitsAux : List Char → ℕ → Option ℕ
  | [], acc => some acc
  | c :: cs, acc =>
    match digitVal c with
    | some d => decDigitsAux cs (acc * 10 + d)
    | none => none

/-- Reads a nonempty all-digit character list as a natural number. -/
def decDigits? : List Char → Option ℕ
  | [] => none
  | c :: cs => decDigitsAux (c :: cs) 0

/-- Codepoint-wise lexicographic comparison of character lists; this is the
order that both `localeCompare` and JavaScript string comparison induce on
ASCII `YYYY-MM-DD` date strings. -/
def lexLe : List Char → List Char → Bool
  | [], _ => true
  | _ :: _, [] => false
  | a :: as, b :: bs => if a < b then true else if b < a then false else lexLe as bs

/-- Date-string comparison used when sorting habit records
(`a.date.localeCompare(b.date)` yields exactly this order on ISO dates). -/
def dateLe (a b : String) : Bool := lexLe a.toList b.toList

/-! ### Session ledger -/

/-- `parse(str, 'HH:mm', referenceDate)` reduced to its observable content:
the parsed hour and minute of day.  Parsing succeeds on `H:MM`/`HH:MM`
digit strings whose hour is `< 24` and whose minute is `< 60`. -/
def parseHHMM (s : String) : Option (ℕ × ℕ) :=
  match splitOnChar ':' s.toList with
  | [h, m] =>
    match decDigits? h, decDigits? m with
    | some hv, some mv => if hv < 24 ∧ mv < 60 then some (hv, mv) else none
    | _, _ => none
  | _ => none

/-- `addSession`: parses the draft's start and end times against the same
reference day, computes `durationMinutes` as the difference of the two
minutes-of-day, silently refuses to create a record when the difference is
`≤ 0`, and otherwise appends a new record carrying a freshly generated
identifier (`crypto.randomUUID()`, passed in here as `newId`).

When one of the time strings does not parse, `differenceInMinutes` on the
invalid date yields `NaN`, the `NaN ≤ 0` guard is false, and the source
would append a record whose duration is `NaN`; that branch has no integer
counterpart and is outside every claim (the UI only passes `HH:mm` values
from `<input type="time">`), so the model leaves the collection unchanged
there. -/
def addSession (sessions : List StudySession) (draft : SessionDraft)
    (newId : String) : List StudySession :=
  match parseHHMM draft.startTime, parseHHMM draft.endTime with
  | some s, some e =>
    let durationMinutes : ℤ := ((e.1 : ℤ) * 60 + e.2) - ((s.1 : ℤ) * 60 + s.2)
    if durationMinutes ≤ 0 then sessions
    else
      sessions ++ [{ id := newId, date := draft.date, subject := draft.subject,
                     startTime := draft.startTime, endTime := draft.endTime,
                     durationMinutes := durationMinutes,
                     focusQuality := draft.focusQuality,
                     distractionCount := draft.distractionCount,
                     energyLevel := draft.energyLevel, notes := draft.notes }]
  | _, _ => sessions

/-- `deleteSession`: `sessions.filter(s => s.id !== id)`. -/
def deleteSession (sessions : List StudySession) (id : String) : List StudySession :=
  sessions.filter (fun s => s.id != id)

/-- `getSessionsForDate`: `sessions.filter(s => s.date === date)`. -/
def getSessionsForDate (sessions : List StudySession) (date : String) : List StudySession :=
  sessions.filter (fun s => s.date == date)

/-- `getDailyTotalHours`: total minutes on the date, divided by 60, rounded
to two decimal places with `Math.round(x * 100) / 100`. -/
def getDailyTotalHours (sessions : List StudySession) (date : String) : ℚ :=
  let totalMinutes : ℤ :=
    (getSessionsForDate sessions date).foldl (fun sum s => sum + s.durationMinutes) 0
  round2 ((totalMinutes : ℚ) / 60)

/-! ### Generic fold helper -/

/-- A left fold that adds `f x` for every element equals the sum of the
mapped list (the shape of every `reduce((sum, s) => sum + …, 0)` in the
tracker). -/
theorem foldl_add_map {α β : Type} [AddCommMonoid β] (f : α → β) :
    ∀ (l : List α) (init : β),
      l.foldl (fun acc x => acc + f x) init = init + (l.map f).sum
  | [], init => by simp
  | x :: xs, init => by
    simp [List.foldl_cons, foldl_add_map f xs (init + f x), add_assoc]

/-! ### Concrete sample data used by the witnesses -/

/-- A concrete 60-minute morning session with identifier `"a"`. -/
def sampleA : StudySession :=
  { id := "a", date := "2025-01-06", subject := "math", startTime := "09:00",
    endTime := "10:00", durationMinutes := 60, focusQuality := 3,
    distractionCount := 0, energyLevel := EnergyLevel.medium, notes := "" }

/-- A concrete 60-minute session with identifier `"b"`. -/
def sampleB : StudySession :=
  { id := "b", date := "2025-01-06", subject := "phys", startTime := "10:00",
    endTime := "11:00", durationMinutes := 60, focusQuality := 4,
    distractionCount := 1, energyLevel := EnergyLevel.high, notes := "" }

/-- A concrete 30-minute session that also carries identifier `"a"`. -/
def sampleA2 : StudySession :=
  { id := "a", date := "2025-01-07", subject := "chem", startTime := "09:00",
    endTime := "09:30", durationMinutes := 30, focusQuality := 2,
    distractionCount := 2, energyLevel := EnergyLevel.low, notes := "" }

/-- A concrete session draft (`09:00`–`10:30`). -/
def sampleDraft : SessionDraft :=
  { date := "2025-01-06", subject := "math", startTime := "09:00",
    endTime := "10:30", focusQuality := 3, distractionCount := 0,
    energyLevel := EnergyLevel.medium, notes := "" }

/-! ### Claim C1 — addSession -/

/-- Claim C1: for every draft whose `startTime` and `endTime` parse as
`HH:MM` on the same reference day, if the end minute-of-day exceeds the
start minute-of-day then `addSession` appends exactly one new session whose
`durationMinutes` is the difference and whose identifier is the freshly
generated one; if the difference is `≤ 0` the session collection is left
completely unchanged (and no error is surfaced — the operation is total). -/
theorem addSession_spec (sessions : List StudySession) (draft : SessionDraft)
    (newId : String) (sh sm eh em : ℕ)
    (hs : parseHHMM draft.startTime = some (sh, sm))
    (he : parseHHMM draft.endTime = some (eh, em)) :
    (((sh : ℤ) * 60 + sm < (eh : ℤ) * 60 + em) →
      addSession sessions draft newId =
        sessions ++ [{ id := newId, date := draft.date, subject := draft.subject,
                       startTime := draft.startTime, endTime := draft.endTime,
                       durationMinutes := ((eh : ℤ) * 60 + em) - ((sh : ℤ) * 60 + sm),
                       focusQuality := draft.focusQuality,
                       distractionCount := draft.distractionCount,
                       energyLevel := draft.energyLevel, notes := draft.notes }] ∧
      (addSession sessions draft newId).length = sessions.length + 1) ∧
    ((((eh : ℤ) * 60 + em) - ((sh : ℤ) * 60 + sm) ≤ 0) →
      addSession sessions draft newId = sessions) := by
  constructor
  · intro hlt
    have hpos : ¬ (((eh : ℤ) * 60 + em) - ((sh : ℤ) * 60 + sm) ≤ 0) := by omega
    constructor
    · simp only [addSession, hs, he, hpos, if_false]
    · simp only [addSession, hs, he, hpos, if_false, List.length_append,
        List.length_cons, List.length_nil]
  · intro hle
    simp only [addSession, hs, he, hle, if_true]

/-- Witness for C1 at a concrete draft (`09:00`–`10:30`, 90 minutes). -/
theorem addSession_spec_witness :
    parseHHMM sampleDraft.startTime = some (9, 0) ∧
    parseHHMM sampleDraft.endTime = some (10, 30) ∧
    ((((9 : ℤ) * 60 + 0 < (10 : ℤ) * 60 + 30) →
      addSession [] sampleDraft "id-1" =
        [] ++ [{ id := "id-1", date := sampleDraft.date, subject := sampleDraft.subject,
                 startTime := sampleDraft.startTime, endTime := sampleDraft.endTime,
                 durationMinutes := ((10 : ℤ) * 60 + 30) - ((9 : ℤ) * 60 + 0),
                 focusQuality := sampleDraft.focusQuality,
                 distractionCount := sampleDraft.distractionCount,
                 energyLevel := sampleDraft.energyLevel, notes := sampleDraft.notes }] ∧
      (addSession [] sampleDraft "id-1").length =
        List.length ([] : List StudySession) + 1) ∧
    ((((10 : ℤ) * 60 + 30) - ((9 : ℤ) * 60 + 0) ≤ 0) →
      addSession [] sampleDraft "id-1" = [])) :=
  ⟨by decide, by decide,
    addSession_spec [] sampleDraft "id-1" 9 0 10 30 (by decide) (by decide)⟩

/-! ### Claim C9 — deleteSession basic contract -/

/-- Claim C9: under the data-model invariant that session identifiers are
unique, deleting an absent identifier is a no-op, deleting a present
identifier removes exactly one record, and a second call with the same
identifier is a no-op (idempotence — stated here unconditionally). -/
theorem deleteSession_spec (sessions : List StudySession) (id : String)
    (hnd : (sessions.map (fun s => s.id)).Nodup) :
    ((∀ s ∈ sessions, s.id ≠ id) → deleteSession sessions id = sessions) ∧
    ((∃ s ∈ sessions, s.id = id) →
      (deleteSession sessions id).length + 1 = sessions.length) ∧
    deleteSession (deleteSession sessions id) id = deleteSession sessions id := by
  refine ⟨?_, ?_, ?_⟩
  · intro habs
    apply List.filter_eq_self.2
    intro s hmem
    simpa using habs s hmem
  · intro ⟨s, hmem, hid⟩
    have hidmem : id ∈ sessions.map (fun s => s.id) :=
      List.mem_map.2 ⟨s, hmem, hid⟩
    have hcount : (sessions.map (fun s => s.id)).count id = 1 :=
      List.count_eq_one_of_mem hnd hidmem
    have hcountP : sessions.countP (fun s => s.id == id) = 1 := by
      have := List.countP_map (fun x => x == id) (fun s : StudySession => s.id) sessions
      simpa [List.count, Function.comp] using this.symm.trans hcount
    have hlen := List.length_eq_countP_add_countP
      (fun s : StudySession => s.id == id) sessions
    have hfl : (deleteSession sessions id).length =
        sessions.countP (fun s => s.id != id) := by
      simp [deleteSession, List.countP_eq_length_filter]
    have hsame : sessions.countP (fun s => s.id != id) =
        sessions.countP (fun s => decide ¬(s.id == id) = true) := by
      apply List.countP_congr
      intro s _
      simp [bne]
    rw [hfl, hsame]
    omega
  · simp [deleteSession, List.filter_filter]

/-- Witness for C9 on a concrete two-session ledger with identifier `"a"`
present. -/
theorem deleteSession_spec_witness :
    (([sampleA, sampleB].map (fun s => s.id)).Nodup ∧
    (((∀ s ∈ [sampleA, sampleB], s.id ≠ "a") →
      deleteSession [sampleA, sampleB] "a" = [sampleA, sampleB]) ∧
    ((∃ s ∈ [sampleA, sampleB], s.id = "a") →
      (deleteSession [sampleA, sampleB] "a").length + 1 =
        ([sampleA, sampleB] : List StudySession).length) ∧
    deleteSession (deleteSession [sampleA, sampleB] "a") "a" =
      deleteSession [sampleA, sampleB] "a")) :=
  ⟨by decide, deleteSession_spec [sampleA, sampleB] "a" (by decide)⟩

/-! ### Claim C10 — deleteSession frame effect -/

/-- Claim C10 (implicit): after `deleteSession id`, no session carrying
that identifier remains — every matching record is removed, even if several
shared the identifier — and the surviving sessions are exactly the
non-matching ones, kept in their original relative order (the result is a
sublist of the input containing every non-matching record). -/
theorem deleteSession_frame (sessions : List StudySession) (id : String) :
    (∀ s ∈ deleteSession sessions id, s.id ≠ id) ∧
    (deleteSession sessions id).Sublist sessions ∧
    (∀ s ∈ sessions, s.id ≠ id → s ∈ deleteSession sessions id) := by
  refine ⟨?_, ?_, ?_⟩
  · intro s hmem
    have := List.of_mem_filter hmem
    simpa using this
  · exact List.filter_sublist sessions
  · intro s hmem hne
    apply List.mem_filter.2
    exact ⟨hmem, by simpa using hne⟩

/-- Witness for C10: a ledger holding two records with the same identifier
`"a"` and one with identifier `"b"`; deletion removes both matches and
keeps the non-match. -/
theorem deleteSession_frame_witness :
    (∀ s ∈ deleteSession [sampleA, sampleB, sampleA2] "a", s.id ≠ "a") ∧
    (deleteSession [sampleA, sampleB, sampleA2] "a").Sublist [sampleA, sampleB, sampleA2] ∧
    (∀ s ∈ [sampleA, sampleB, sampleA2],
      s.id ≠ "a" → s ∈ deleteSession [sampleA, sampleB, sampleA2] "a") :=
  deleteSession_frame [sampleA, sampleB, sampleA2] "a"

/-! ### Habit ledger -/

/-- `updateHabits`: upsert keyed by date.  `findIndex` locates the first
record with the draft's date; if found that record is replaced wholesale
(`updated[existing] = dailyHabits`), otherwise the record is appended. -/
def updateHabits (habits : List DailyHabits) (r : DailyHabits) : List DailyHabits :=
  match habits.findIdx? (fun h => h.date == r.date) with
  | some i => habits.set i r
  | none => habits ++ [r]

/-- The six habit keys iterated by `getHabitStreaks`. -/
inductive HabitKey
  | wakeUpOnTime
  | sleepEnough
  | exercise
  | englishPractice
  | noPorn
  | noSocialMedia
deriving DecidableEq

/-- Field access `sortedHabits[i][key]` for a habit key. -/
def DailyHabits.flag (h : DailyHabits) : HabitKey → Bool
  | .wakeUpOnTime => h.wakeUpOnTime
  | .sleepEnough => h.sleepEnough
  | .exercise => h.exercise
  | .englishPractice => h.englishPractice
  | .noPorn => h.noPorn
  | .noSocialMedia => h.noSocialMedia

/-- `[...habits].sort((a, b) => a.date.localeCompare(b.date))`: a stable
sort of the habit records by date ascending. -/
def sortHabits (habits : List DailyHabits) : List DailyHabits :=
  habits.mergeSort (fun a b => dateLe a.date b.date)

/-- The backward scan of `getHabitStreaks`: the source walks the sorted
array from the last index down, incrementing while the flag is `true` and
stopping at the first `false`; this is that loop over the reversed list
(most recent record first). -/
def streakFrom : List Bool → ℕ
  | [] => 0
  | b :: rest => if b then streakFrom rest + 1 else 0

/-- `getHabitStreaks` for one key: scan the date-sorted records from the
most recent backward, counting consecutive `true` values. -/
def getHabitStreaks (habits : List DailyHabits) (k : HabitKey) : ℕ :=
  streakFrom (((sortHabits habits).map (fun h => h.flag k)).reverse)

/-- Counts the `true` flags of one record, as the `reduce` body of
`getMonthlyHabitCompletion` does. -/
def countTrueFlags (h : DailyHabits) : ℕ :=
  (if h.wakeUpOnTime then 1 else 0) + (if h.sleepEnough then 1 else 0) +
  (if h.exercise then 1 else 0) + (if h.englishPractice then 1 else 0) +
  (if h.noPorn then 1 else 0) + (if h.noSocialMedia then 1 else 0)

/-- Character-level `String.prototype.startsWith`. -/
def isPrefixList : List Char → List Char → Bool
  | [], _ => true
  | _ :: _, [] => false
  | a :: as, b :: bs => a = b && isPrefixList as bs

/-- `s.startsWith(pre)` on strings, used by `h.date.startsWith(currentMonth)`. -/
def strStartsWith (s pre : String) : Bool := isPrefixList pre.toList s.toList

/-- `getMonthlyHabitCompletion`, with the ambient `format(new Date(),
'yyyy-MM')` made an explicit `currentMonth` parameter: restricts to this
month's records, and returns the rounded overall and english-practice
completion percentages (`(0, 0)` when the month has no records). -/
def getMonthlyHabitCompletion (habits : List DailyHabits) (currentMonth : String) : ℤ × ℤ :=
  let monthHabits := habits.filter (fun h => strStartsWith h.date currentMonth)
  if monthHabits.length = 0 then (0, 0)
  else
    let total : ℤ := (monthHabits.length : ℤ) * 6
    let completed : ℤ := monthHabits.foldl (fun sum h => sum + (countTrueFlags h : ℤ)) 0
    let englishDays : ℤ := ((monthHabits.filter (fun h => h.englishPractice)).length : ℤ)
    (jsRound ((completed : ℚ) / (total : ℚ) * 100),
     jsRound ((englishDays : ℚ) / (monthHabits.length : ℚ) * 100))

/-! ### List helpers for the habit proofs -/

/-- Setting an index of a list to the value it already holds is the
identity. -/
theorem set_getElem_self {α : Type} (l : List α) (i : ℕ) (hi : i < l.length) :
    l.set i l[i] = l := by
  apply List.ext_getElem?
  intro j
  by_cases hji : i = j
  · subst hji
    rw [List.getElem?_set_self hi, List.getElem?_eq_getElem hi]
  · rw [List.getElem?_set_ne hji]

/-- The backward streak scan counts the leading run of `true` values. -/
theorem streakFrom_eq_takeWhile :
    ∀ l : List Bool, streakFrom l = (l.takeWhile (fun b => b)).length
  | [] => rfl
  | b :: rest => by
    cases b <;> simp [streakFrom, List.takeWhile_cons, streakFrom_eq_takeWhile rest]

/-- `lexLe` is total. -/
theorem lexLe_total : ∀ a b : List Char, (lexLe a b || lexLe b a) = true
  | [], _ => by simp [lexLe]
  | _ :: _, [] => by simp [lexLe]
  | x :: xs, y :: ys => by
    rcases lt_trichotomy x y with h | h | h
    · simp [lexLe, h]
    · subst h
      simpa [lexLe, lt_irrefl] using lexLe_total xs ys
    · simp [lexLe, h, asymm h]

/-- `lexLe` is transitive. -/
theorem lexLe_trans : ∀ a b c : List Char,
    lexLe a b = true → lexLe b c = true → lexLe a c = true
  | [], _, _, _, _ => rfl
  | _ :: _, [], _, hab, _ => by simp [lexLe] at hab
  | _ :: _, _ :: _, [], _, hbc => by simp [lexLe] at hbc
  | x :: xs, y :: ys, z :: zs, hab, hbc => by
    rcases lt_trichotomy x y with hxy | hxy | hxy
    · rcases lt_trichotomy y z with hyz | hyz | hyz
      · simp [lexLe, lt_trans hxy hyz]
      · subst hyz
        simp [lexLe, hxy]
      · simp [lexLe, hyz, asymm hyz] at hbc
    · subst hxy
      rcases lt_trichotomy x z with hxz | hxz | hxz
      · simp [lexLe, hxz]
      · subst hxz
        simp only [lexLe, lt_irrefl, if_false] at hab hbc ⊢
        exact lexLe_trans xs ys zs hab hbc
      · simp [lexLe, hxz, asymm hxz] at hbc
    · simp [lexLe, hxy, asymm hxy] at hab

/-! ### Claim C5 — updateHabits upsert -/

/-- Claim C5: starting from a state with at most one habit record per date,
`updateHabits r` appends `r` when no record carries `r`'s date; when the
record at position `i` carries `r`'s date, it is replaced wholesale by `r`
(same length, position `i` now holds `r`, every other position untouched);
and the one-record-per-date invariant is preserved. -/
theorem updateHabits_spec (habits : List DailyHabits) (r : DailyHabits)
    (hnd : (habits.map (fun h => h.date)).Nodup) :
    ((∀ h ∈ habits, h.date ≠ r.date) → updateHabits habits r = habits ++ [r]) ∧
    (∀ i, (hi : i < habits.length) → habits[i].date = r.date →
      updateHabits habits r = habits.set i r ∧
      (updateHabits habits r)[i]? = some r ∧
      (updateHabits habits r).length = habits.length ∧
      (∀ j, j ≠ i → (updateHabits habits r)[j]? = habits[j]?)) ∧
    ((updateHabits habits r).map (fun h => h.date)).Nodup := by
  refine ⟨?_, ?_, ?_⟩
  · intro habs
    have hnone : habits.findIdx? (fun h => h.date == r.date) = none := by
      rw [List.findIdx?_eq_none_iff]
      intro h hmem
      simpa using habs h hmem
    simp [updateHabits, hnone]
  · intro i hi hdate
    have hset : updateHabits habits r = habits.set i r := by
      rcases hfind : habits.findIdx? (fun h => h.date == r.date) with _ | i'
      · rw [List.findIdx?_eq_none_iff] at hfind
        have := hfind habits[i] (List.getElem_mem hi)
        simp [hdate] at this
      · obtain ⟨hi', hp', -⟩ := List.findIdx?_eq_some_iff_getElem.1 hfind
        have hmi' : i' < (habits.map (fun h => h.date)).length := by simpa using hi'
        have hmi : i < (habits.map (fun h => h.date)).length := by simpa using hi
        have hdates : (habits.map (fun h => h.date))[i'] =
            (habits.map (fun h => h.date))[i] := by
          have h1 : habits[i'].date = r.date := by simpa using hp'
          simp [List.getElem_map, h1, hdate]
        have : i' = i := (List.Nodup.getElem_inj_iff hnd).1 hdates
        subst this
        simp [updateHabits, hfind]
    refine ⟨hset, ?_, ?_, ?_⟩
    · rw [hset]
      exact List.getElem?_set_self hi
    · rw [hset, List.length_set]
    · intro j hji
      rw [hset, List.getElem?_set_ne (Ne.symm hji)]
  · rcases hfind : habits.findIdx? (fun h => h.date == r.date) with _ | i
    · have habs := List.findIdx?_eq_none_iff.1 hfind
      have hout : r.date ∉ habits.map (fun h => h.date) := by
        intro hmem
        obtain ⟨h, hh, hd⟩ := List.mem_map.1 hmem
        have := habs h hh
        simp [hd] at this
      simp only [updateHabits, hfind, List.map_append, List.map_cons, List.map_nil]
      rw [List.nodup_append]
      exact ⟨hnd, List.nodup_singleton _, by
        intro a ha hb
        simp only [List.mem_singleton] at hb
        subst hb
        exact hout ha⟩
    · obtain ⟨hi, hp, -⟩ := List.findIdx?_eq_some_iff_getElem.1 hfind
      have hdate : habits[i].date = r.date := by simpa using hp
      have hmap : (updateHabits habits r).map (fun h => h.date) =
          habits.map (fun h => h.date) := by
        simp only [updateHabits, hfind, List.map_set]
        have hmi : i < (habits.map (fun h => h.date)).length := by
          simpa using hi
        have : r.date = (habits.map (fun h => h.date))[i] := by
          simp [List.getElem_map, hdate]
        rw [this, set_getElem_self _ _ hmi]
      rw [hmap]
      exact hnd

/-- Witness for C5: replacing the record for `2025-01-06` (spec example:
an `{exercise := true}` upsert then a `{sleepEnough := true}` upsert
results in the second record wholesale). -/
theorem updateHabits_spec_witness :
    (([{ date := "2025-01-06", wakeUpOnTime := false, sleepEnough := false,
         exercise := true, englishPractice := false, noPorn := false,
         noSocialMedia := false }] : List DailyHabits).map (fun h => h.date)).Nodup ∧
    (((∀ h ∈ ([{ date := "2025-01-06", wakeUpOnTime := false, sleepEnough := false, exercise := true, englishPractice := false, noPorn := false, noSocialMedia := false }] : List DailyHabits), h.date ≠ "2025-01-06") →
      updateHabits [{ date := "2025-01-06", wakeUpOnTime := false, sleepEnough := false, exercise := true, englishPractice := false, noPorn := false, noSocialMedia := false }] { date := "2025-01-06", wakeUpOnTime := false, sleepEnough := true, exercise := false, englishPractice := false, noPorn := false, noSocialMedia := false } =
        [{ date := "2025-01-06", wakeUpOnTime := false, sleepEnough := false, exercise := true, englishPractice := false, noPorn := false, noSocialMedia := false }] ++ [{ date := "2025-01-06", wakeUpOnTime := false, sleepEnough := true, exercise := false, englishPractice := false, noPorn := false, noSocialMedia := false }]) ∧
    (∀ i, (hi : i < ([{ date := "2025-01-06", wakeUpOnTime := false, sleepEnough := false, exercise := true, englishPractice := false, noPorn := false, noSocialMedia := false }] : List DailyHabits).length) → ([{ date := "2025-01-06", wakeUpOnTime := false, sleepEnough := false, exercise := true, englishPractice := false, noPorn := false, noSocialMedia := false }] : List DailyHabits)[i].date = ({ date := "2025-01-06", wakeUpOnTime := false, sleepEnough := true, exercise := false, englishPractice := false, noPorn := false, noSocialMedia := false } : DailyHabits).date →
      updateHabits [{ date := "2025-01-06", wakeUpOnTime := false, sleepEnough := false, exercise := true, englishPractice := false, noPorn := false, noSocialMedia := false }] { date := "2025-01-06", wakeUpOnTime := false, sleepEnough := true, exercise := false, englishPractice := false, noPorn := false, noSocialMedia := false } =
        ([{ date := "2025-01-06", wakeUpOnTime := false, sleepEnough := false, exercise := true, englishPractice := false, noPorn := false, noSocialMedia := false }] : List DailyHabits).set i { date := "2025-01-06", wakeUpOnTime := false, sleepEnough := true, exercise := false, englishPractice := false, noPorn := false, noSocialMedia := false } ∧
      (updateHabits [{ date := "2025-01-06", wakeUpOnTime := false, sleepEnough := false, exercise := true, englishPractice := false, noPorn := false, noSocialMedia := false }] { date := "2025-01-06", wakeUpOnTime := false, sleepEnough := true, exercise := false, englishPractice := false, noPorn := false, noSocialMedia := false })[i]? = some { date := "2025-01-06", wakeUpOnTime := false, sleepEnough := true, exercise := false, englishPractice := false, noPorn := false, noSocialMedia := false } ∧
      (updateHabits [{ date := "2025-01-06", wakeUpOnTime := false, sleepEnough := false, exercise := true, englishPractice := false, noPorn := false, noSocialMedia := false }] { date := "2025-01-06", wakeUpOnTime := false, sleepEnough := true, exercise := false, englishPractice := false, noPorn := false, noSocialMedia := false }).length =
        ([{ date := "2025-01-06", wakeUpOnTime := false, sleepEnough := false, exercise := true, englishPractice := false, noPorn := false, noSocialMedia := false }] : List DailyHabits).length ∧
      (∀ j, j ≠ i → (updateHabits [{ date := "2025-01-06", wakeUpOnTime := false, sleepEnough := false, exercise := true, englishPractice := false, noPorn := false, noSocialMedia := false }] { date := "2025-01-06", wakeUpOnTime := false, sleepEnough := true, exercise := false, englishPractice := false, noPorn := false, noSocialMedia := false })[j]? = ([{ date := "2025-01-06", wakeUpOnTime := false, sleepEnough := false, exercise := true, englishPractice := false, noPorn := false, noSocialMedia := false }] : List DailyHabits)[j]?)) ∧
    ((updateHabits [{ date := "2025-01-06", wakeUpOnTime := false, sleepEnough := false, exercise := true, englishPractice := false, noPorn := false, noSocialMedia := false }] { date := "2025-01-06", wakeUpOnTime := false, sleepEnough := true, exercise := false, englishPractice := false, noPorn := false, noSocialMedia := false }).map (fun h => h.date)).Nodup) :=
  ⟨by decide,
    updateHabits_spec [{ date := "2025-01-06", wakeUpOnTime := false, sleepEnough := false, exercise := true, englishPractice := false, noPorn := false, noSocialMedia := false }] { date := "2025-01-06", wakeUpOnTime := false, sleepEnough := true, exercise := false, englishPractice := false, noPorn := false, noSocialMedia := false } (by decide)⟩

/-! ### Claim C2 — habit streaks -/

/-- Claim C2: for each habit key independently, the returned streak is the
number of trailing `true` values of that key in the habit records sorted by
date ascending (`sortHabits` really is that sorted list: it is a
permutation of the records, pairwise ordered by date); the scan walks from
the most recent recorded date backward and stops at the first `false`,
only ever seeing the dates that exist, and with no records the streak
is 0. -/
theorem getHabitStreaks_spec (habits : List DailyHabits) (k : HabitKey) :
    getHabitStreaks habits k =
      (((sortHabits habits).map (fun h => h.flag k)).reverse.takeWhile
        (fun b => b)).length ∧
    (sortHabits habits).Perm habits ∧
    (sortHabits habits).Pairwise (fun a b => dateLe a.date b.date = true) ∧
    getHabitStreaks [] k = 0 := by
  refine ⟨streakFrom_eq_takeWhile _, List.mergeSort_perm habits _, ?_, ?_⟩
  · show (habits.mergeSort (fun a b => dateLe a.date b.date)).Pairwise
      (fun a b => dateLe a.date b.date = true)
    exact @List.sorted_mergeSort DailyHabits (fun a b => dateLe a.date b.date)
      (fun a b c hab hbc => lexLe_trans _ _ _ hab hbc)
      (fun a b => lexLe_total _ _) habits
  · simp [getHabitStreaks, sortHabits, List.mergeSort_nil, streakFrom]

/-! ### Claim C8 — monthly habit completion -/

/-- Claim C8: restricted to the records of the given month, `overall` is
the count of `true` flags across all six keys divided by `6 ×` the record
count, times 100, rounded; `english` is the count of records with
`englishPractice` divided by the record count, times 100, rounded; both
components are 0 when the month has no records, so no division by zero
occurs. -/
theorem getMonthlyHabitCompletion_spec (habits : List DailyHabits) (month : String) :
    (habits.filter (fun h => strStartsWith h.date month) = [] →
      getMonthlyHabitCompletion habits month = (0, 0)) ∧
    (habits.filter (fun h => strStartsWith h.date month) ≠ [] →
      getMonthlyHabitCompletion habits month =
        (jsRound (((((habits.filter (fun h => strStartsWith h.date month)).map
              (fun h => (countTrueFlags h : ℤ))).sum : ℚ) /
            ((6 : ℚ) * ((habits.filter (fun h => strStartsWith h.date month)).length : ℚ))) * 100),
         jsRound ((((habits.filter (fun h => strStartsWith h.date month)).countP
              (fun h => h.englishPractice) : ℚ) /
            (((habits.filter (fun h => strStartsWith h.date month)).length : ℚ))) * 100))) := by
  constructor
  · intro hempty
    simp [getMonthlyHabitCompletion, hempty]
  · intro hne
    have hlen : ¬ (habits.filter (fun h => strStartsWith h.date month)).length = 0 := by
      simpa [List.length_eq_zero] using hne
    have hfold : (habits.filter (fun h => strStartsWith h.date month)).foldl
        (fun sum h => sum + (countTrueFlags h : ℤ)) 0 =
        ((habits.filter (fun h => strStartsWith h.date month)).map
          (fun h => (countTrueFlags h : ℤ))).sum := by
      simpa using foldl_add_map (fun h : DailyHabits => (countTrueFlags h : ℤ)) _ 0
    have hcnt : (((habits.filter (fun h => strStartsWith h.date month)).filter
        (fun h => h.englishPractice)).length : ℤ) =
        ((habits.filter (fun h => strStartsWith h.date month)).countP
          (fun h => h.englishPractice) : ℤ) := by
      rw [List.countP_eq_length_filter]
    simp only [getMonthlyHabitCompletion, if_neg hlen, hfold, hcnt, Prod.mk.injEq]
    constructor
    · congr 1
      push_cast
      ring
    · congr 1

/-- A habit record with every flag set. -/
def habAllTrue : DailyHabits :=
  { date := "2025-01-05", wakeUpOnTime := true, sleepEnough := true,
    exercise := true, englishPractice := true, noPorn := true,
    noSocialMedia := true }

/-- A habit record with every flag cleared. -/
def habAllFalse : DailyHabits :=
  { date := "2025-01-09", wakeUpOnTime := false, sleepEnough := false,
    exercise := false, englishPractice := false, noPorn := false,
    noSocialMedia := false }

/-- Witness for C8: one fully-true and one fully-false record in
January 2025 give `overall = round(6/12 × 100) = 50` and `english = 50`. -/
theorem getMonthlyHabitCompletion_spec_witness :
    [habAllTrue, habAllFalse].filter
      (fun h => strStartsWith h.date "2025-01") ≠ [] ∧
    getMonthlyHabitCompletion [habAllTrue, habAllFalse] "2025-01" = (50, 50) := by
  refine ⟨by decide, ?_⟩
  have h := (getMonthlyHabitCompletion_spec [habAllTrue, habAllFalse] "2025-01").2
    (by decide)
  have hf : [habAllTrue, habAllFalse].filter
      (fun h => strStartsWith h.date "2025-01") = [habAllTrue, habAllFalse] := by
    decide
  rw [h, hf]
  simp only [List.map_cons, List.map_nil, List.sum_cons, List.sum_nil,
    List.countP_cons, List.countP_nil, List.length_cons, List.length_nil]
  norm_num [habAllTrue, habAllFalse, countTrueFlags, jsRound]

/-! ### Claim C7 — daily total hours -/

/-- Rounding to the nearest integer with halves away from zero, the
convention named by the specification for `getDailyTotalHours`. -/
def roundHalfAwayFromZero (q : ℚ) : ℤ :=
  if 0 ≤ q then ⌊q + 1/2⌋ else -⌊-q + 1/2⌋

/-- On every value of the form `m/60 × 100` (hundredths of hours from an
integer number of minutes) the JavaScript `Math.round` (halves up) agrees
with rounding halves away from zero: such a value has fractional part
`0`, `1/3` or `2/3`, never `1/2`. -/
theorem jsRound_minutes_eq_roundAway (m : ℤ) :
    jsRound ((m : ℚ) / 60 * 100) = roundHalfAwayFromZero ((m : ℚ) / 60 * 100) := by
  rcases le_or_lt 0 m with hm | hm
  · have hq : (0 : ℚ) ≤ (m : ℚ) / 60 * 100 := by
      have : (0 : ℚ) ≤ (m : ℚ) := by exact_mod_cast hm
      positivity
    simp [roundHalfAwayFromZero, hq, jsRound]
  · have hmq : (m : ℚ) < 0 := by exact_mod_cast hm
    have hq : (m : ℚ) / 60 * 100 < 0 := by linarith
    simp only [jsRound, roundHalfAwayFromZero, if_neg (not_le.2 hq)]
    have h1 : (m : ℚ) / 60 * 100 + 1/2 = ((10 * m + 3 : ℤ) : ℚ) / ((6 : ℕ) : ℚ) := by
      push_cast
      ring
    have h2 : -((m : ℚ) / 60 * 100) + 1/2 = (((-10) * m + 3 : ℤ) : ℚ) / ((6 : ℕ) : ℚ) := by
      push_cast
      ring
    rw [h1, h2, Rat.floor_intCast_div_natCast, Rat.floor_intCast_div_natCast]
    omega

/-- Claim C7: for every date `d`, `getDailyTotalHours` returns the sum of
`durationMinutes` over the sessions dated `d`, divided by 60, rounded to
two decimal places as `round(x*100)/100` with halves away from zero; with
no session on `d` it returns 0. -/
theorem getDailyTotalHours_spec (sessions : List StudySession) (d : String) :
    getDailyTotalHours sessions d =
      (roundHalfAwayFromZero
        ((((getSessionsForDate sessions d).map (fun s => (s.durationMinutes : ℤ))).sum : ℚ)
          / 60 * 100) : ℚ) / 100 ∧
    (getSessionsForDate sessions d = [] → getDailyTotalHours sessions d = 0) := by
  constructor
  · have hfold : (getSessionsForDate sessions d).foldl
        (fun sum s => sum + s.durationMinutes) 0 =
        ((getSessionsForDate sessions d).map (fun s => s.durationMinutes)).sum := by
      simpa using foldl_add_map (fun s : StudySession => s.durationMinutes) _ 0
    have key := jsRound_minutes_eq_roundAway
      (((getSessionsForDate sessions d).map (fun s => s.durationMinutes)).sum)
    simp only [getDailyTotalHours, round2, hfold, key]
  · intro hempty
    simp [getDailyTotalHours, hempty, round2, jsRound]
    norm_num

/-- A concrete 100-minute session used by the C7 witness. -/
def sampleC : StudySession :=
  { id := "c", date := "2025-01-08", subject := "math", startTime := "09:00",
    endTime := "10:40", durationMinutes := 100, focusQuality := 5,
    distractionCount := 0, energyLevel := EnergyLevel.high, notes := "" }

/-- Witness for C7: 100 minutes on one day is 1.6666…h, reported as 1.67. -/
theorem getDailyTotalHours_spec_witness :
    getSessionsForDate [sampleC] "2025-01-08" = [sampleC] ∧
    getDailyTotalHours [sampleC] "2025-01-08" = 167 / 100 := by
  have hf : getSessionsForDate [sampleC] "2025-01-08" = [sampleC] := by decide
  refine ⟨hf, ?_⟩
  have h := (getDailyTotalHours_spec [sampleC] "2025-01-08").1
  rw [h, hf]
  norm_num [roundHalfAwayFromZero, sampleC]

/-! ### Target planner -/

/-- The week-target creation step run by the hook's mount effect, with the
two ambient dates made explicit: `weekStart` is `format(startOfWeek(now),
'yyyy-MM-dd')` and `prevWeekStart` is the same for `subWeeks(now, 1)`.  If
a record for `weekStart` exists nothing changes; otherwise a record is
appended whose target is `min(prev.targetHours + 0.5, 10)` when the
previous week's record exists and the baseline 5 otherwise, rounded to one
decimal place. -/
def ensureWeekTarget (targets : List WeeklyTarget) (weekStart prevWeekStart : String) :
    List WeeklyTarget :=
  match targets.find? (fun t => t.weekStart == weekStart) with
  | some _ => targets
  | none =>
    let baseTarget : ℚ :=
      match targets.find? (fun t => t.weekStart == prevWeekStart) with
      | some prevTarget => min (prevTarget.targetHours + 1/2) 10
      | none => 5
    targets ++ [{ weekStart := weekStart, targetHours := round1 baseTarget,
                  actualHours := 0, met := false }]

/-- Target collections reachable from the empty store by repeatedly
running the week-target creation step (with arbitrary week parameters). -/
inductive ReachableTargets : List WeeklyTarget → Prop
  | init : ReachableTargets []
  | step (s : List WeeklyTarget) (ws pws : String) :
      ReachableTargets s → ReachableTargets (ensureWeekTarget s ws pws)

/-- `round1` is the identity on integer multiples of `1/2`. -/
theorem round1_half (k : ℤ) : round1 ((k : ℚ) / 2) = (k : ℚ) / 2 := by
  have h10 : ((k : ℚ) / 2) * 10 = ((5 * k : ℤ) : ℚ) := by
    push_cast
    ring
  have hfl : ⌊((5 * k : ℤ) : ℚ) + 1/2⌋ = 5 * k := by
    rw [add_comm, Int.floor_add_int]
    norm_num
  simp only [round1, jsRound, h10, hfl]
  push_cast
  ring

/-- `round1` fixes the baseline target 5. -/
theorem round1_five : round1 (5 : ℚ) = 5 := by
  have h := round1_half 10
  norm_num at h
  exact h

/-- Step behaviour when a record for the current week exists. -/
theorem ensureWeekTarget_of_found (s : List WeeklyTarget) (ws pws : String)
    (ex : WeeklyTarget) (hf : s.find? (fun t => t.weekStart == ws) = some ex) :
    ensureWeekTarget s ws pws = s := by
  unfold ensureWeekTarget
  rw [hf]

/-- Step behaviour when the current week is new and the previous week's
record exists. -/
theorem ensureWeekTarget_of_none_found (s : List WeeklyTarget) (ws pws : String)
    (p : WeeklyTarget) (hf : s.find? (fun t => t.weekStart == ws) = none)
    (hp : s.find? (fun t => t.weekStart == pws) = some p) :
    ensureWeekTarget s ws pws = s ++
      [{ weekStart := ws, targetHours := round1 (min (p.targetHours + 1/2) 10),
         actualHours := 0, met := false }] := by
  unfold ensureWeekTarget
  rw [hf, hp]

/-- Step behaviour when neither the current nor the previous week has a
record. -/
theorem ensureWeekTarget_of_none_none (s : List WeeklyTarget) (ws pws : String)
    (hf : s.find? (fun t => t.weekStart == ws) = none)
    (hp : s.find? (fun t => t.weekStart == pws) = none) :
    ensureWeekTarget s ws pws = s ++
      [{ weekStart := ws, targetHours := round1 5, actualHours := 0, met := false }] := by
  unfold ensureWeekTarget
  rw [hf, hp]

/-- Every target record in a reachable state has hours in `[5, 10]` and an
exact multiple of one half. -/
theorem reachable_good {s : List WeeklyTarget} (hs : ReachableTargets s) :
    ∀ t ∈ s, 5 ≤ t.targetHours ∧ t.targetHours ≤ 10 ∧
      ∃ k : ℤ, t.targetHours = (k : ℚ) / 2 := by
  induction hs with
  | init => intro t ht; simp at ht
  | step s ws pws hr ih =>
    intro t ht
    rcases hf : s.find? (fun t => t.weekStart == ws) with _ | ex
    · rcases hp : s.find? (fun t => t.weekStart == pws) with _ | p
      · rw [ensureWeekTarget_of_none_none s ws pws hf hp] at ht
        rcases List.mem_append.1 ht with hmem | hmem
        · exact ih t hmem
        · simp only [List.mem_singleton] at hmem
          subst hmem
          simp only [round1_five]
          refine ⟨by norm_num, by norm_num, 10, by norm_num⟩
      · rw [ensureWeekTarget_of_none_found s ws pws p hf hp] at ht
        rcases List.mem_append.1 ht with hmem | hmem
        · exact ih t hmem
        · simp only [List.mem_singleton] at hmem
          subst hmem
          obtain ⟨h5, h10, k, hk⟩ := ih p (List.mem_of_find?_eq_some hp)
          have hmin : min (p.targetHours + 1/2) 10 = ((min (k + 1) 20 : ℤ) : ℚ) / 2 := by
            rw [hk]
            have h1 : (k : ℚ) / 2 + 1/2 = ((k + 1 : ℤ) : ℚ) / 2 := by
              push_cast
              ring
            have h2 : (10 : ℚ) = ((20 : ℤ) : ℚ) / 2 := by norm_num
            rw [h1, h2, min_div_div_right (by norm_num : (0 : ℚ) ≤ 2), ← Int.cast_min]
          simp only [hmin, round1_half]
          have hk20 : ((min (k + 1) 20 : ℤ) : ℚ) ≤ 20 := by
            have : (min (k + 1) 20 : ℤ) ≤ 20 := min_le_right _ _
            exact_mod_cast this
          have hk10 : (10 : ℚ) ≤ ((min (k + 1) 20 : ℤ) : ℚ) := by
            have hk1 : (10 : ℤ) ≤ k + 1 := by
              have : (5 : ℚ) ≤ (k : ℚ) / 2 := hk ▸ h5
              have : (10 : ℚ) ≤ (k : ℚ) := by linarith
              have : (10 : ℤ) ≤ k := by exact_mod_cast this
              omega
            have : (10 : ℤ) ≤ min (k + 1) 20 := le_min hk1 (by norm_num)
            exact_mod_cast this
          exact ⟨by linarith, by linarith, min (k + 1) 20, rfl⟩
    · rw [ensureWeekTarget_of_found s ws pws ex hf] at ht
      exact ih t ht

/-! ### Claim C3 — week-target creation step -/

/-- Claim C3: when no record exists for the current week's Monday, the step
inserts a record with `actualHours = 0`, `met = false` and target
`min(previous.targetHours + 0.5, 10)` rounded to one decimal if the
previous week's record exists and 5 otherwise; when the current week's
record exists the step changes nothing (idempotent per week); and
`targetHours` never exceeds 10 in any reachable state. -/
theorem ensureWeekTarget_spec (targets : List WeeklyTarget) (ws pws : String) :
    (∀ ex, targets.find? (fun t => t.weekStart == ws) = some ex →
      ensureWeekTarget targets ws pws = targets) ∧
    (targets.find? (fun t => t.weekStart == ws) = none →
      (∀ p, targets.find? (fun t => t.weekStart == pws) = some p →
        ensureWeekTarget targets ws pws = targets ++
          [{ weekStart := ws, targetHours := round1 (min (p.targetHours + 1/2) 10),
             actualHours := 0, met := false }]) ∧
      (targets.find? (fun t => t.weekStart == pws) = none →
        ensureWeekTarget targets ws pws = targets ++
          [{ weekStart := ws, targetHours := 5, actualHours := 0, met := false }])) ∧
    (∀ s, ReachableTargets s → ∀ t ∈ s, t.targetHours ≤ 10) := by
  refine ⟨?_, ?_, ?_⟩
  · intro ex hf
    exact ensureWeekTarget_of_found targets ws pws ex hf
  · intro hf
    constructor
    · intro p hp
      exact ensureWeekTarget_of_none_found targets ws pws p hf hp
    · intro hp
      rw [ensureWeekTarget_of_none_none targets ws pws hf hp, round1_five]
  · intro s hs t ht
    exact (reachable_good hs t ht).2.1

/-- Witness for C3: the very first evaluation on an empty store creates the
baseline record for Monday 2025-01-06. -/
theorem ensureWeekTarget_spec_witness :
    List.find? (fun t => t.weekStart == "2025-01-06") ([] : List WeeklyTarget) = none ∧
    ensureWeekTarget [] "2025-01-06" "2024-12-30" =
      [] ++ [{ weekStart := "2025-01-06", targetHours := 5,
               actualHours := 0, met := false }] :=
  ⟨rfl, ((ensureWeekTarget_spec [] "2025-01-06" "2024-12-30").2.1 rfl).2 rfl⟩

/-! ### Claim C4 — weekly target invariant -/

/-- The claim's ordering property: viewing records in week-start order,
`targetHours` is non-decreasing (for any two records whose week starts are
strictly ordered, the earlier target is at most the later one). -/
def WeekOrdered (s : List WeeklyTarget) : Prop :=
  ∀ a ∈ s, ∀ b ∈ s, dateLe a.weekStart b.weekStart = true →
    a.weekStart ≠ b.weekStart → a.targetHours ≤ b.targetHours

/-- The baseline record created for Monday 2025-01-06. -/
def tgtW1 : WeeklyTarget :=
  { weekStart := "2025-01-06", targetHours := 5, actualHours := 0, met := false }

/-- The record created for Monday 2025-01-13 (one step after `tgtW1`). -/
def tgtW2 : WeeklyTarget :=
  { weekStart := "2025-01-13", targetHours := 11/2, actualHours := 0, met := false }

/-- The record created for Monday 2025-01-27 after the week of 2025-01-20
was skipped: the previous-week lookup fails and the target resets to the
baseline 5. -/
def tgtW4 : WeeklyTarget :=
  { weekStart := "2025-01-27", targetHours := 5, actualHours := 0, met := false }

/-- First evaluation (during the week of 2025-01-06, empty store). -/
theorem ensureWeekTarget_eval1 :
    ensureWeekTarget [] "2025-01-06" "2024-12-30" = [tgtW1] := by
  rw [ensureWeekTarget_of_none_none [] "2025-01-06" "2024-12-30" rfl rfl, round1_five]
  rfl

/-- Second evaluation (during the week of 2025-01-13). -/
theorem ensureWeekTarget_eval2 :
    ensureWeekTarget [tgtW1] "2025-01-13" "2025-01-06" = [tgtW1, tgtW2] := by
  have hp : List.find? (fun t => t.weekStart == "2025-01-06") [tgtW1] = some tgtW1 :=
    List.find?_cons_of_pos _ (by decide)
  rw [ensureWeekTarget_of_none_found [tgtW1] "2025-01-13" "2025-01-06" tgtW1
    (by decide) hp]
  have hval : round1 (min (tgtW1.targetHours + 1/2) 10) = 11/2 := by
    norm_num [tgtW1, round1, jsRound]
  rw [hval]
  rfl

/-- Third evaluation (during the week of 2025-01-27; the week of 2025-01-20
was never evaluated). -/
theorem ensureWeekTarget_eval3 :
    ensureWeekTarget [tgtW1, tgtW2] "2025-01-27" "2025-01-20" =
      [tgtW1, tgtW2, tgtW4] := by
  rw [ensureWeekTarget_of_none_none [tgtW1, tgtW2] "2025-01-27" "2025-01-20"
    (by decide) (by decide), round1_five]
  rfl

/-- The one-week store is reachable. -/
theorem reachable_w1 : ReachableTargets [tgtW1] := by
  have h := ReachableTargets.step [] "2025-01-06" "2024-12-30" ReachableTargets.init
  rwa [ensureWeekTarget_eval1] at h

/-- The three-week store with a skipped week is reachable. -/
theorem reachable_w124 : ReachableTargets [tgtW1, tgtW2, tgtW4] := by
  have h1 := reachable_w1
  have h2 := ReachableTargets.step [tgtW1] "2025-01-13" "2025-01-06" h1
  rw [ensureWeekTarget_eval2] at h2
  have h3 := ReachableTargets.step [tgtW1, tgtW2] "2025-01-27" "2025-01-20" h2
  rwa [ensureWeekTarget_eval3] at h3

/-- Counterexample to claim C4: the store `[tgtW1, tgtW2, tgtW4]` is
reachable by repeated evaluations of the step (weeks of 2025-01-06,
2025-01-13 and 2025-01-27, skipping 2025-01-20), yet in week-start order
its targets go `5, 5.5, 5` — not non-decreasing. -/
theorem weekOrdered_counterexample :
    ReachableTargets [tgtW1, tgtW2, tgtW4] ∧
    ¬ WeekOrdered [tgtW1, tgtW2, tgtW4] := by
  refine ⟨reachable_w124, ?_⟩
  intro h
  have hmem2 : tgtW2 ∈ [tgtW1, tgtW2, tgtW4] :=
    List.mem_cons_of_mem _ (List.mem_cons_self _ _)
  have hmem4 : tgtW4 ∈ [tgtW1, tgtW2, tgtW4] :=
    List.mem_cons_of_mem _ (List.mem_cons_of_mem _ (List.mem_cons_self _ _))
  have hle := h tgtW2 hmem2 tgtW4 hmem4 (by decide) (by decide)
  norm_num [tgtW2, tgtW4] at hle

/-- Amended claim C4: in every reachable state all targets lie in
`[5, 10]`; a step whose previous-week record `p` exists appends a record
with target exactly `min(p.targetHours + 0.5, 10)` — rising by exactly 0.5
while `p ≤ 9.5` and capped at 10 above — hence never below `p`; but when
the previous-week lookup fails the new record restarts at the baseline 5,
so across a skipped week the week-start order need not be non-decreasing
(see the counterexample). -/
theorem reachableTargets_bounds (s : List WeeklyTarget) (hs : ReachableTargets s) :
    (∀ t ∈ s, 5 ≤ t.targetHours ∧ t.targetHours ≤ 10) ∧
    (∀ ws pws p, s.find? (fun t => t.weekStart == ws) = none →
      s.find? (fun t => t.weekStart == pws) = some p →
      ensureWeekTarget s ws pws = s ++
        [{ weekStart := ws, targetHours := min (p.targetHours + 1/2) 10,
           actualHours := 0, met := false }] ∧
      p.targetHours ≤ min (p.targetHours + 1/2) 10 ∧
      (p.targetHours ≤ 19/2 →
        min (p.targetHours + 1/2) 10 = p.targetHours + 1/2) ∧
      (19/2 < p.targetHours → min (p.targetHours + 1/2) 10 = 10)) := by
  have good := reachable_good hs
  refine ⟨fun t ht => ⟨(good t ht).1, (good t ht).2.1⟩, ?_⟩
  intro ws pws p hf hp
  obtain ⟨h5, h10, k, hk⟩ := good p (List.mem_of_find?_eq_some hp)
  have hmin : min (p.targetHours + 1/2) 10 = ((min (k + 1) 20 : ℤ) : ℚ) / 2 := by
    rw [hk]
    have h1 : (k : ℚ) / 2 + 1/2 = ((k + 1 : ℤ) : ℚ) / 2 := by
      push_cast
      ring
    have h2 : (10 : ℚ) = ((20 : ℤ) : ℚ) / 2 := by norm_num
    rw [h1, h2, min_div_div_right (by norm_num : (0 : ℚ) ≤ 2), ← Int.cast_min]
  refine ⟨?_, ?_, ?_, ?_⟩
  · rw [ensureWeekTarget_of_none_found s ws pws p hf hp]
    rw [hmin, round1_half, ← hmin]
  · exact le_min (by linarith) h10
  · intro hle
    exact min_eq_left (by linarith)
  · intro hlt
    exact min_eq_right (by linarith)

/-- Witness for the amended C4 at the concrete reachable one-week store. -/
theorem reachableTargets_bounds_witness :
    ReachableTargets [tgtW1] ∧
    ((∀ t ∈ [tgtW1], 5 ≤ t.targetHours ∧ t.targetHours ≤ 10) ∧
    (∀ ws pws p, List.find? (fun t => t.weekStart == ws) [tgtW1] = none →
      List.find? (fun t => t.weekStart == pws) [tgtW1] = some p →
      ensureWeekTarget [tgtW1] ws pws = [tgtW1] ++
        [{ weekStart := ws, targetHours := min (p.targetHours + 1/2) 10,
           actualHours := 0, met := false }] ∧
      p.targetHours ≤ min (p.targetHours + 1/2) 10 ∧
      (p.targetHours ≤ 19/2 →
        min (p.targetHours + 1/2) 10 = p.targetHours + 1/2) ∧
      (19/2 < p.targetHours → min (p.targetHours + 1/2) 10 = 10))) :=
  ⟨reachable_w1, reachableTargets_bounds [tgtW1] reachable_w1⟩

/-! ### Weekly statistics (calendar model)

`getWeeklyStats` compares timestamps: `parseISO(s.date)` is midnight UTC
of the civil date, and the week ends at `endOfWeek(weekStart)` with weeks
starting Monday.  Timestamps are modelled in integer milliseconds since
1970-01-01, with the civil-date conversion written out (days-from-civil). -/

/-- Milliseconds per day. -/
def msPerDay : ℤ := 86400000

/-- Days from 1970-01-01 of the civil date `y-m-d` (proleptic Gregorian
calendar, the conversion that `parseISO` performs for `YYYY-MM-DD`). -/
def daysFromCivil (y : ℤ) (m d : ℕ) : ℤ :=
  let yAdj : ℤ := if m ≤ 2 then y - 1 else y
  let era : ℤ := yAdj.fdiv 400
  let yoe : ℤ := yAdj - era * 400
  let mp : ℕ := (m + 9) % 12
  let doy : ℕ := (153 * mp + 2) / 5 + d - 1
  let doe : ℤ := yoe * 365 + yoe.fdiv 4 - yoe.fdiv 100 + (doy : ℤ)
  era * 146097 + doe - 719468

/-- Splits a `YYYY-MM-DD` string into its numeric fields. -/
def parseDate (s : String) : Option (ℕ × ℕ × ℕ) :=
  match splitOnChar '-' s.toList with
  | [ys, ms, ds] =>
    match decDigits? ys, decDigits? ms, decDigits? ds with
    | some y, some m, some d =>
      if 1 ≤ m ∧ m ≤ 12 ∧ 1 ≤ d ∧ d ≤ 31 then some (y, m, d) else none
    | _, _, _ => none
  | _ => none

/-- The day number (days since 1970-01-01) of an ISO date string. -/
def parseISOday (s : String) : Option ℤ :=
  (parseDate s).map (fun x => daysFromCivil (x.1 : ℤ) x.2.1 x.2.2)

/-- `parseISO`: midnight UTC of the date, in milliseconds. -/
def parseISOms (s : String) : Option ℤ :=
  (parseISOday s).map (fun d => d * msPerDay)

/-- `endOfWeek(t, { weekStartsOn: 1 })` in milliseconds: the last
millisecond of the Sunday of `t`'s week (1970-01-01 was a Thursday). -/
def endOfWeekMs (t : ℤ) : ℤ :=
  let day := t.fdiv msPerDay
  let idx := (day + 3) % 7
  (day + (6 - idx) + 1) * msPerDay - 1

/-- The record returned by `getWeeklyStats`; `subjectMap` is the
`Record<string, number>` of per-subject minutes in property insertion
order. -/
structure WeeklyStats where
  totalHours : ℚ
  avgFocus : ℚ
  subjectMap : List (String × ℤ)
  sessionCount : ℕ

/-- `subjectMap[s.subject] = (subjectMap[s.subject] || 0) + s.durationMinutes`:
adds minutes to an existing key in place, or appends a new key. -/
def addMinutes : List (String × ℤ) → String → ℤ → List (String × ℤ)
  | [], subj, dur => [(subj, dur)]
  | (a, v) :: rest, subj, dur =>
    if a = subj then (a, v + dur) :: rest else (a, v) :: addMinutes rest subj dur

/-- `getWeeklyStats(weekStart)`: filters the sessions to the interval
`[weekStart, endOfWeek(weekStart)]` and aggregates total hours, average
focus quality, the per-subject minute distribution and the session
count. -/
def getWeeklyStats (sessions : List StudySession) (weekStartMs : ℤ) : WeeklyStats :=
  let weekEnd := endOfWeekMs weekStartMs
  let weekSessions := sessions.filter (fun s =>
    match parseISOms s.date with
    | some t => decide (weekStartMs ≤ t) && decide (t ≤ weekEnd)
    | none => false)
  let totalMinutes : ℤ := weekSessions.foldl (fun sum s => sum + s.durationMinutes) 0
  let avgFocus : ℚ :=
    if 0 < weekSessions.length then
      (weekSessions.foldl (fun sum s => sum + (s.focusQuality : ℚ)) 0) /
        (weekSessions.length : ℚ)
    else 0
  { totalHours := (totalMinutes : ℚ) / 60,
    avgFocus := avgFocus,
    subjectMap := weekSessions.foldl (fun m s => addMinutes m s.subject s.durationMinutes) [],
    sessionCount := weekSessions.length }

/-- Day-level week membership: the session's date parses and its day lies
in `[weekStart, weekStart + 6]`. -/
def inWeek (wsDay : ℤ) (s : StudySession) : Bool :=
  match parseISOday s.date with
  | some d => decide (wsDay ≤ d) && decide (d ≤ wsDay + 6)
  | none => false

/-- On the Monday midnight `wsDay * msPerDay`, `endOfWeek` is the last
millisecond of day `wsDay + 6`. -/
theorem endOfWeekMs_monday (wsDay : ℤ) (hmon : (wsDay + 3) % 7 = 0) :
    endOfWeekMs (wsDay * msPerDay) = (wsDay + 7) * msPerDay - 1 := by
  have h1 : (wsDay * msPerDay).fdiv msPerDay = wsDay := by
    simp only [msPerDay]
    rw [Int.fdiv_eq_ediv _ (by norm_num)]
    omega
  simp only [endOfWeekMs]
  rw [h1, hmon]
  ring

/-- For a Monday week start, the millisecond-interval filter of
`getWeeklyStats` selects exactly the sessions whose day falls in
`[wsDay, wsDay + 6]`. -/
theorem weekFilter_eq (sessions : List StudySession) (wsDay : ℤ)
    (hmon : (wsDay + 3) % 7 = 0) :
    sessions.filter (fun s =>
      match parseISOms s.date with
      | some t => decide (wsDay * msPerDay ≤ t) &&
          decide (t ≤ endOfWeekMs (wsDay * msPerDay))
      | none => false) = sessions.filter (inWeek wsDay) := by
  apply List.filter_congr
  intro s _
  rcases hp : parseISOday s.date with _ | d
  · simp [parseISOms, hp, inWeek]
  · simp only [parseISOms, hp, Option.map_some', inWeek]
    rw [endOfWeekMs_monday wsDay hmon, ← Bool.decide_and, ← Bool.decide_and]
    apply decide_eq_decide.2
    simp only [msPerDay]
    omega

/-- Association-list lookup (`subjectMap[k]`). -/
def alookup (k : String) : List (String × ℤ) → Option ℤ
  | [] => none
  | (a, v) :: rest => if a = k then some v else alookup k rest

/-- The keys of a subject list after deduplication keeping the first
occurrence of each subject, relative to the already-seen keys. -/
def firstOccurAux (seen : List String) : List String → List String
  | [] => []
  | x :: xs => if x ∈ seen then firstOccurAux seen xs else x :: firstOccurAux (x :: seen) xs

/-- First-occurrence deduplication of a list of subjects. -/
def firstOccur (l : List String) : List String := firstOccurAux [] l

/-- Looking a key up after `addMinutes`: the named key gains `dur` (from a
prior value or 0), every other key is untouched. -/
theorem alookup_addMinutes (subj k : String) (dur : ℤ) :
    ∀ m : List (String × ℤ),
      alookup k (addMinutes m subj dur) =
        if k = subj then some ((alookup k m).getD 0 + dur) else alookup k m
  | [] => by
    by_cases h : k = subj
    · subst h
      simp [addMinutes, alookup]
    · have h' : ¬ subj = k := fun hh => h hh.symm
      simp [addMinutes, alookup, h, h']
  | (a, v) :: rest => by
    by_cases h1 : a = subj
    · subst h1
      by_cases h2 : k = a
      · subst h2
        simp [addMinutes, alookup]
      · have h2' : ¬ a = k := fun hh => h2 hh.symm
        simp [addMinutes, alookup, h2, h2']
    · by_cases h2 : a = k
      · have hks : ¬ k = subj := fun hh => h1 (h2.trans hh)
        simp [addMinutes, alookup, h1, h2, hks]
      · simp [addMinutes, alookup, h1, h2, alookup_addMinutes subj k dur rest]

/-- Lookup in the subject map built by the fold: a subject that occurs in
the session list maps to its prior value (or 0) plus its total minutes; a
subject that does not occur keeps its prior binding. -/
theorem alookup_foldl (k : String) :
    ∀ (l : List StudySession) (m : List (String × ℤ)),
      alookup k (l.foldl (fun acc s => addMinutes acc s.subject s.durationMinutes) m) =
        if l.filter (fun s => s.subject == k) = [] then alookup k m
        else some ((alookup k m).getD 0 +
          ((l.filter (fun s => s.subject == k)).map
            (fun s => (s.durationMinutes : ℤ))).sum)
  | [], m => by simp
  | s :: l, m => by
    rw [List.foldl_cons, alookup_foldl k l (addMinutes m s.subject s.durationMinutes)]
    by_cases hks : s.subject = k
    · have hcons : (s :: l).filter (fun s => s.subject == k) =
          s :: l.filter (fun s => s.subject == k) := by
        simp [List.filter_cons, hks]
      rw [hcons]
      have hlk := alookup_addMinutes s.subject k s.durationMinutes m
      rw [if_pos hks.symm] at hlk
      by_cases hl : l.filter (fun s => s.subject == k) = []
      · rw [if_pos hl, hlk, if_neg (List.cons_ne_nil s _)]
        simp [hl]
      · rw [if_neg hl, hlk, if_neg (List.cons_ne_nil s _)]
        simp only [Option.getD_some, List.map_cons, List.sum_cons]
        congr 1
        ring
    · have hcons : (s :: l).filter (fun s => s.subject == k) =
          l.filter (fun s => s.subject == k) := by
        simp [List.filter_cons, hks]
      rw [hcons]
      have hlk := alookup_addMinutes s.subject k s.durationMinutes m
      rw [if_neg (fun hh : k = s.subject => hks hh.symm)] at hlk
      rw [hlk]

/-- The keys after `addMinutes`: unchanged when the subject is already a
key, extended by the subject otherwise. -/
theorem keys_addMinutes (subj : String) (dur : ℤ) :
    ∀ m : List (String × ℤ),
      (addMinutes m subj dur).map Prod.fst =
        if subj ∈ m.map Prod.fst then m.map Prod.fst
        else m.map Prod.fst ++ [subj]
  | [] => by simp [addMinutes]
  | (a, v) :: rest => by
    by_cases h : a = subj
    · subst h
      simp [addMinutes]
    · have hne : ¬ subj = a := fun hh => h hh.symm
      simp only [addMinutes, if_neg h, List.map_cons,
        keys_addMinutes subj dur rest]
      by_cases hmem : subj ∈ rest.map Prod.fst
      · simp [hmem, hne]
      · simp [hmem, hne]

/-- `firstOccurAux` only depends on the membership of the seen list. -/
theorem firstOccurAux_congr :
    ∀ (xs seen1 seen2 : List String), (∀ x, x ∈ seen1 ↔ x ∈ seen2) →
      firstOccurAux seen1 xs = firstOccurAux seen2 xs
  | [], _, _, _ => rfl
  | x :: xs, s1, s2, h => by
    by_cases hx : x ∈ s1
    · simp only [firstOccurAux, if_pos hx, if_pos ((h x).1 hx)]
      exact firstOccurAux_congr xs s1 s2 h
    · have hx2 : x ∉ s2 := fun hh => hx ((h x).2 hh)
      simp only [firstOccurAux, if_neg hx, if_neg hx2]
      exact congrArg (x :: ·)
        (firstOccurAux_congr xs (x :: s1) (x :: s2)
          (fun y => by simp [List.mem_cons, h y]))

/-- The keys of the fold-built subject map are the prior keys followed by
the first occurrences of the new subjects. -/
theorem keys_foldl :
    ∀ (l : List StudySession) (m : List (String × ℤ)),
      ((l.foldl (fun acc s => addMinutes acc s.subject s.durationMinutes) m).map
        Prod.fst) =
        m.map Prod.fst ++
          firstOccurAux (m.map Prod.fst) (l.map (fun s => s.subject))
  | [], m => by simp [firstOccurAux]
  | s :: l, m => by
    rw [List.foldl_cons, keys_foldl l (addMinutes m s.subject s.durationMinutes),
      keys_addMinutes s.subject s.durationMinutes m]
    by_cases hmem : s.subject ∈ m.map Prod.fst
    · rw [if_pos hmem]
      simp only [List.map_cons, firstOccurAux, if_pos hmem]
    · rw [if_neg hmem]
      simp only [List.map_cons, firstOccurAux, if_neg hmem, List.append_assoc,
        List.singleton_append]
      exact congrArg _ (congrArg (s.subject :: ·)
        (firstOccurAux_congr (l.map (fun s => s.subject))
          (m.map Prod.fst ++ [s.subject]) (s.subject :: m.map Prod.fst)
          (fun y => by simp [List.mem_append, List.mem_cons, or_comm])))

/-! ### Claim C6 — weekly statistics -/

/-- Claim C6: for a Monday week start, `getWeeklyStats` selects exactly
the sessions whose date falls in the inclusive day range
`[weekStart, weekStart + 6]`; `totalHours` is their total minutes divided
by 60 with no rounding; `avgFocus` is the arithmetic mean of their
`focusQuality` (0 when no session is in range); `subjectMap` maps each
subject occurring in range to that subject's total minutes in range, keyed
in order of first occurrence; and `sessionCount` is the number of sessions
in range. -/
theorem getWeeklyStats_spec (sessions : List StudySession) (wsDay : ℤ)
    (hmon : (wsDay + 3) % 7 = 0) :
    (getWeeklyStats sessions (wsDay * msPerDay)).sessionCount =
      (sessions.filter (inWeek wsDay)).length ∧
    (getWeeklyStats sessions (wsDay * msPerDay)).totalHours =
      ((((sessions.filter (inWeek wsDay)).map
        (fun s => (s.durationMinutes : ℤ))).sum : ℚ)) / 60 ∧
    (sessions.filter (inWeek wsDay) = [] →
      (getWeeklyStats sessions (wsDay * msPerDay)).avgFocus = 0) ∧
    (sessions.filter (inWeek wsDay) ≠ [] →
      (getWeeklyStats sessions (wsDay * msPerDay)).avgFocus =
        ((sessions.filter (inWeek wsDay)).map
          (fun s => (s.focusQuality : ℚ))).sum /
          (((sessions.filter (inWeek wsDay)).length : ℚ))) ∧
    (∀ subj, alookup subj (getWeeklyStats sessions (wsDay * msPerDay)).subjectMap =
      if (sessions.filter (inWeek wsDay)).filter (fun s => s.subject == subj) = []
      then none
      else some ((((sessions.filter (inWeek wsDay)).filter
          (fun s => s.subject == subj)).map
            (fun s => (s.durationMinutes : ℤ))).sum)) ∧
    (getWeeklyStats sessions (wsDay * msPerDay)).subjectMap.map Prod.fst =
      firstOccur ((sessions.filter (inWeek wsDay)).map (fun s => s.subject)) := by
  have hsel := weekFilter_eq sessions wsDay hmon
  have hfold1 : (sessions.filter (inWeek wsDay)).foldl
      (fun sum s => sum + s.durationMinutes) 0 =
      ((sessions.filter (inWeek wsDay)).map (fun s => (s.durationMinutes : ℤ))).sum := by
    simpa using foldl_add_map (fun s : StudySession => s.durationMinutes)
      (sessions.filter (inWeek wsDay)) 0
  have hfold2 : (sessions.filter (inWeek wsDay)).foldl
      (fun sum s => sum + (s.focusQuality : ℚ)) 0 =
      ((sessions.filter (inWeek wsDay)).map (fun s => (s.focusQuality : ℚ))).sum := by
    simpa using foldl_add_map (fun s : StudySession => (s.focusQuality : ℚ))
      (sessions.filter (inWeek wsDay)) 0
  refine ⟨?_, ?_, ?_, ?_, ?_, ?_⟩
  · simp only [getWeeklyStats, hsel]
  · simp only [getWeeklyStats, hsel, hfold1]
  · intro hempty
    simp only [getWeeklyStats, hsel, hempty]
    simp
  · intro hne
    have hpos : 0 < (sessions.filter (inWeek wsDay)).length :=
      List.length_pos.2 hne
    simp only [getWeeklyStats, hsel, if_pos hpos, hfold2]
  · intro subj
    simp only [getWeeklyStats, hsel]
    rw [alookup_foldl subj (sessions.filter (inWeek wsDay)) []]
    by_cases hfe : (sessions.filter (inWeek wsDay)).filter
        (fun s => s.subject == subj) = []
    · simp [hfe, alookup]
    · simp [hfe, alookup]
  · simp only [getWeeklyStats, hsel]
    rw [keys_foldl (sessions.filter (inWeek wsDay)) []]
    simp [firstOccur]

/-- An out-of-week session used by the C6 witness. -/
def sampleFar : StudySession :=
  { id := "f", date := "2025-02-10", subject := "bio", startTime := "09:00",
    endTime := "10:00", durationMinutes := 60, focusQuality := 2,
    distractionCount := 0, energyLevel := EnergyLevel.low, notes := "" }

/-- Witness for C6 in the week of Monday 2025-01-06 (day number 20094):
`sampleA` is in range, `sampleFar` (2025-02-10) is not. -/
theorem getWeeklyStats_spec_witness :
    ((20094 : ℤ) + 3) % 7 = 0 ∧
    ((getWeeklyStats [sampleA, sampleFar] (20094 * msPerDay)).sessionCount =
      ([sampleA, sampleFar].filter (inWeek 20094)).length ∧
    (getWeeklyStats [sampleA, sampleFar] (20094 * msPerDay)).totalHours =
      (((([sampleA, sampleFar].filter (inWeek 20094)).map
        (fun s => (s.durationMinutes : ℤ))).sum : ℚ)) / 60 ∧
    ([sampleA, sampleFar].filter (inWeek 20094) = [] →
      (getWeeklyStats [sampleA, sampleFar] (20094 * msPerDay)).avgFocus = 0) ∧
    ([sampleA, sampleFar].filter (inWeek 20094) ≠ [] →
      (getWeeklyStats [sampleA, sampleFar] (20094 * msPerDay)).avgFocus =
        (([sampleA, sampleFar].filter (inWeek 20094)).map
          (fun s => (s.focusQuality : ℚ))).sum /
          ((([sampleA, sampleFar].filter (inWeek 20094)).length : ℚ))) ∧
    (∀ subj, alookup subj
        (getWeeklyStats [sampleA, sampleFar] (20094 * msPerDay)).subjectMap =
      if ([sampleA, sampleFar].filter (inWeek 20094)).filter
          (fun s => s.subject == subj) = []
      then none
      else some (((([sampleA, sampleFar].filter (inWeek 20094)).filter
          (fun s => s.subject == subj)).map
            (fun s => (s.durationMinutes : ℤ))).sum)) ∧
    (getWeeklyStats [sampleA, sampleFar] (20094 * msPerDay)).subjectMap.map
        Prod.fst =
      firstOccur (([sampleA, sampleFar].filter (inWeek 20094)).map
        (fun s => s.subject))) :=
  ⟨by decide, getWeeklyStats_spec [sampleA, sampleFar] 20094 (by decide)⟩

end DeepFocus
